import Mathlib

/-!
Shallow embedding of `src/Web_App_Version/script.js` of the
Catalog-Management-System repository: an in-memory catalog of items with
add / update / delete / view operations over a JS array `catalogData`.

The store is modelled as a `List Item`; JS array mutation becomes explicit
state passing.  Operations return the new store together with the signal
(the `alert` message) they raised, if any; the `confirm` dialog of delete
becomes a boolean argument.  JS number ids are modelled as `Int`, JS strings
as `String`, and `String.prototype.trim` as `jsTrim` over the character
list (ASCII whitespace, which covers every input appearing here).
-/

namespace Catalog

/-- A catalog item: the record `{id, name, description}` built by `addItem`
and `updateItem` in `script.js`. -/
structure Item where
  id : Int
  name : String
  description : String
  deriving DecidableEq

/-- The user-visible signals raised via `alert` in `script.js`:
`emptyName` and `emptyDescription` are the two validation alerts of
`validateInput`, `notFound` is the "Item not found" alert. -/
inductive Signal where
  | emptyName
  | emptyDescription
  | notFound
  deriving DecidableEq

/-- JS `String.prototype.trim`: drop leading and trailing whitespace.
Modelled over the character list because it must compute inside proofs. -/
def jsTrim (s : String) : String :=
  ⟨((s.data.dropWhile Char.isWhitespace).reverse.dropWhile Char.isWhitespace).reverse⟩

/-- `validateInput(name, description)` (script.js lines 127-140): alerts
`emptyName` when the name is falsy (`""` for a string) or trims to empty,
then `emptyDescription` likewise for the description; `none` means valid. -/
def validateInput (name description : String) : Option Signal :=
  if name == "" || jsTrim name == "" then some .emptyName
  else if description == "" || jsTrim description == "" then some .emptyDescription
  else none

/-- The id-generation policy inside `addItem` (script.js lines 155-157):
`catalogData.length > 0 ? Math.max(...catalogData.map(item => item.id)) + 1 : 1`.
The spec calls this `nextId()`. -/
def nextId (store : List Item) : Int :=
  match store with
  | [] => 1
  | it :: rest => (rest.map Item.id).foldl max it.id + 1

/-- `addItem(name, description)` (script.js lines 148-176): validate, then
push a new record with the generated id and trimmed fields.  On a validation
signal the JS function returns without touching the array, so the store
comes back unchanged. -/
def addItem (store : List Item) (name description : String) :
    List Item × Option Signal :=
  match validateInput name description with
  | some sig => (store, some sig)
  | none =>
      let newItem : Item := ⟨nextId store, jsTrim name, jsTrim description⟩
      (store ++ [newItem], none)

/-- The lookup `catalogData.find(item => item.id === id)` used by
`viewItemDetails` and `editItem` (script.js lines 91 and 185); the spec
calls it `findById`. -/
def findById (store : List Item) (id : Int) : Option Item :=
  store.find? (fun it => it.id == id)

/-- `catalogData.findIndex(item => item.id === id)` (script.js lines 220 and
256), with `none` standing for the JS result `-1`. -/
def findIndex (store : List Item) (id : Int) : Option Nat :=
  match store with
  | [] => none
  | it :: rest =>
      if it.id == id then some 0 else (findIndex rest id).map (· + 1)

/-- `updateItem(id, name, description)` (script.js lines 213-241): validate,
find the index of the id, and overwrite that slot with a fresh record
carrying the same id and trimmed fields.  Absent id alerts `notFound`. -/
def updateItem (store : List Item) (id : Int) (name description : String) :
    List Item × Option Signal :=
  match validateInput name description with
  | some sig => (store, some sig)
  | none =>
      match findIndex store id with
      | none => (store, some .notFound)
      | some i => (store.set i ⟨id, jsTrim name, jsTrim description⟩, none)

/-- `closeDetails()` (script.js lines 112-114): hide the detail view.  The
detail view is modelled as `Option Int`: `some id` when `detailsSection` is
visible and rendering the item with that id, `none` when hidden. -/
def closeDetails (_details : Option Int) : Option Int :=
  none

/-- `viewItemDetails(id)` (script.js lines 90-106): look the item up; if
absent alert `notFound` and leave the view alone, else render it and show
the section. -/
def viewItemDetails (store : List Item) (details : Option Int) (id : Int) :
    Option Int × Option Signal :=
  match findById store id with
  | none => (details, some .notFound)
  | some _ => (some id, none)

/-- `deleteItem(id)` (script.js lines 249-275): `confirmed` is the answer of
the `confirm` dialog — when it is `false` the function returns before any
mutation.  Otherwise the item is removed with `splice(itemIndex, 1)` and,
when the detail view is open, `closeDetails()` is called.  Returns the new
store, the new detail-view state, and the signal raised, if any. -/
def deleteItem (store : List Item) (details : Option Int) (id : Int)
    (confirmed : Bool) : (List Item × Option Int) × Option Signal :=
  if confirmed = false then ((store, details), none)
  else
    match findIndex store id with
    | none => ((store, details), some .notFound)
    | some i =>
        let details' := if details.isSome then closeDetails details else details
        ((store.eraseIdx i, details'), none)

/-- JS truthiness of `editingItemId`, which is `null` or a number: `null`
and `0` are falsy, every other integer is truthy. -/
def numTruthy (x : Option Int) : Bool :=
  match x with
  | none => false
  | some n => n != 0

/-- The `itemForm` submit listener (script.js lines 306-318): route to
`updateItem(editingItemId, ...)` when `editingItemId` is truthy, else to
`addItem`. -/
def submitForm (store : List Item) (editingItemId : Option Int)
    (name description : String) : List Item × Option Signal :=
  if numTruthy editingItemId then
    updateItem store (editingItemId.getD 0) name description
  else
    addItem store name description

/-- All `id` values of the stored items are pairwise distinct. -/
def distinctIds (store : List Item) : Prop :=
  store.Pairwise (fun a b => a.id ≠ b.id)

/-! ### Helper lemmas -/

theorem jsTrim_empty : jsTrim "" = "" := rfl

theorem le_foldl_max (l : List Int) (a : Int) : a ≤ l.foldl max a := by
  induction l generalizing a with
  | nil => exact le_refl a
  | cons x xs ih => exact le_trans (le_max_left a x) (ih (max a x))

theorem mem_le_foldl_max {b : Int} :
    ∀ (l : List Int) (a : Int), b ∈ l → b ≤ l.foldl max a
  | [], _, hb => absurd hb (List.not_mem_nil b)
  | x :: xs, a, hb => by
    rcases List.mem_cons.mp hb with rfl | h
    · exact le_trans (le_max_right a b) (le_foldl_max xs (max a b))
    · exact mem_le_foldl_max xs (max a x) h

theorem foldl_max_eq_or_mem :
    ∀ (l : List Int) (a : Int), l.foldl max a = a ∨ l.foldl max a ∈ l
  | [], _ => Or.inl rfl
  | x :: xs, a => by
    rw [List.foldl_cons]
    rcases foldl_max_eq_or_mem xs (max a x) with h | h
    · rw [h]
      rcases max_choice a x with h' | h'
      · exact Or.inl h'
      · exact Or.inr (by rw [h']; exact List.mem_cons_self x xs)
    · exact Or.inr (List.mem_cons_of_mem x h)

/-- Freshness of the generated id: it is strictly greater than every id in
the store. -/
theorem id_lt_nextId {store : List Item} {it : Item} (h : it ∈ store) :
    it.id < nextId store := by
  match store with
  | [] => cases h
  | x :: rest =>
    rw [nextId]
    have hle : it.id ≤ (rest.map Item.id).foldl max x.id := by
      rcases List.mem_cons.mp h with rfl | h'
      · exact le_foldl_max _ _
      · exact mem_le_foldl_max _ _ (List.mem_map_of_mem Item.id h')
    omega

theorem nextId_sub_one_mem {store : List Item} (h : store ≠ []) :
    nextId store - 1 ∈ store.map Item.id := by
  match store with
  | [] => exact absurd rfl h
  | x :: rest =>
    rw [nextId, List.map_cons]
    have : (rest.map Item.id).foldl max x.id + 1 - 1
        = (rest.map Item.id).foldl max x.id := by omega
    rw [this]
    rcases foldl_max_eq_or_mem (rest.map Item.id) x.id with h' | h'
    · rw [h']
      exact List.mem_cons_self _ _
    · exact List.mem_cons_of_mem _ h'

theorem findIndex_eq_none_iff (store : List Item) (id : Int) :
    findIndex store id = none ↔ ∀ it ∈ store, it.id ≠ id := by
  induction store with
  | nil => simp [findIndex]
  | cons x rest ih =>
    by_cases h : x.id = id
    · simp [findIndex, h]
    · simp [findIndex, h, ih]

theorem findIndex_some {store : List Item} {id : Int} {i : Nat}
    (h : findIndex store id = some i) :
    ∃ it, store[i]? = some it ∧ it.id = id := by
  induction store generalizing i with
  | nil => simp [findIndex] at h
  | cons x rest ih =>
    rw [findIndex] at h
    by_cases hx : (x.id == id) = true
    · rw [if_pos hx] at h
      injection h with h0
      subst h0
      exact ⟨x, by simp, beq_iff_eq.mp hx⟩
    · rw [if_neg hx] at h
      obtain ⟨j, hj, rfl⟩ := Option.map_eq_some'.mp h
      obtain ⟨it, hit, hid⟩ := ih hj
      exact ⟨it, by simpa using hit, hid⟩

theorem findIndex_lt_length {store : List Item} {id : Int} {i : Nat}
    (h : findIndex store id = some i) : i < store.length := by
  obtain ⟨it, hit, -⟩ := findIndex_some h
  exact (List.getElem?_eq_some.mp hit).1

theorem set_self_of_getElem? {α : Type} {l : List α} {i : Nat} {a : α}
    (h : l[i]? = some a) : l.set i a = l := by
  induction l generalizing i with
  | nil => simp at h
  | cons x rest ih =>
    cases i with
    | zero =>
      simp at h
      simp [h]
    | succ j =>
      simp at h
      simp [ih h]

theorem findById_eraseIdx_eq_none {store : List Item} {id : Int} {i : Nat}
    (hd : distinctIds store) (hi : findIndex store id = some i) :
    findById (store.eraseIdx i) id = none := by
  induction store generalizing i with
  | nil => simp [findIndex] at hi
  | cons x rest ih =>
    rw [distinctIds, List.pairwise_cons] at hd
    rw [findIndex] at hi
    by_cases hx : (x.id == id) = true
    · rw [if_pos hx] at hi
      injection hi with h0
      subst h0
      rw [List.eraseIdx_cons_zero, findById]
      apply List.find?_eq_none.mpr
      intro it hit
      have hne := hd.1 it hit
      have hxid := beq_iff_eq.mp hx
      simp only [beq_iff_eq]
      omega
    · rw [if_neg hx] at hi
      obtain ⟨j, hj, rfl⟩ := Option.map_eq_some'.mp hi
      rw [List.eraseIdx_cons_succ, findById,
        List.find?_cons_of_neg (p := fun it : Item => it.id == id) _ hx]
      exact ih hd.2 hj

theorem validateInput_eq_none {name description : String}
    (hn : jsTrim name ≠ "") (hd : jsTrim description ≠ "") :
    validateInput name description = none := by
  have hn' : name ≠ "" := fun h => hn (by rw [h]; rfl)
  have hd' : description ≠ "" := fun h => hd (by rw [h]; rfl)
  simp [validateInput, hn, hd, hn', hd']

theorem distinctIds_iff_map (store : List Item) :
    distinctIds store ↔ (store.map Item.id).Pairwise (fun a b => a ≠ b) := by
  rw [distinctIds, List.pairwise_map]

theorem addItem_valid {store : List Item} {n d : String}
    (hv : validateInput n d = none) :
    addItem store n d = (store ++ [⟨nextId store, jsTrim n, jsTrim d⟩], none) := by
  simp [addItem, hv]

theorem updateItem_found {store : List Item} {id : Int} {n d : String} {i : Nat}
    (hv : validateInput n d = none) (hf : findIndex store id = some i) :
    updateItem store id n d = (store.set i ⟨id, jsTrim n, jsTrim d⟩, none) := by
  simp [updateItem, hv, hf]

theorem deleteItem_found {store : List Item} {details : Option Int} {id : Int}
    {i : Nat} (hf : findIndex store id = some i) :
    deleteItem store details id true = ((store.eraseIdx i, none), none) := by
  cases details with
  | none => simp [deleteItem, hf, closeDetails]
  | some d => simp [deleteItem, hf, closeDetails]

theorem find_fresh_append (store : List Item) (x : Item)
    (hx : x.id = nextId store) :
    findById (store ++ [x]) (nextId store) = some x := by
  rw [findById, List.find?_append]
  have h1 : store.find? (fun it => it.id == nextId store) = none := by
    apply List.find?_eq_none.mpr
    intro it hit
    have := id_lt_nextId hit
    simp only [beq_iff_eq]
    omega
  rw [h1]
  simp [hx]

theorem distinctIds_addItem (store : List Item) (n d : String)
    (h : distinctIds store) : distinctIds (addItem store n d).1 := by
  cases hv : validateInput n d with
  | some sig => simpa [addItem, hv] using h
  | none =>
    rw [addItem_valid hv]
    rw [distinctIds, List.pairwise_append]
    refine ⟨h, List.pairwise_singleton _ _, ?_⟩
    intro a ha b hb
    rw [List.mem_singleton] at hb
    subst hb
    exact ne_of_lt (id_lt_nextId ha)

theorem distinctIds_updateItem (store : List Item) (id : Int) (n d : String)
    (h : distinctIds store) : distinctIds (updateItem store id n d).1 := by
  cases hv : validateInput n d with
  | some sig => simpa [updateItem, hv] using h
  | none =>
    cases hf : findIndex store id with
    | none => simpa [updateItem, hv, hf] using h
    | some i =>
      rw [updateItem_found hv hf]
      obtain ⟨it, hit, hid⟩ := findIndex_some hf
      have hmap : (store.set i ⟨id, jsTrim n, jsTrim d⟩).map Item.id
          = store.map Item.id := by
        rw [List.map_set]
        apply set_self_of_getElem?
        rw [List.getElem?_map, hit]
        simp [hid]
      show distinctIds (store.set i ⟨id, jsTrim n, jsTrim d⟩)
      rw [distinctIds_iff_map, hmap, ← distinctIds_iff_map]
      exact h

theorem distinctIds_deleteItem (store : List Item) (details : Option Int)
    (id : Int) (c : Bool) (h : distinctIds store) :
    distinctIds (deleteItem store details id c).1.1 := by
  cases c with
  | false => simpa [deleteItem] using h
  | true =>
    cases hf : findIndex store id with
    | none => simpa [deleteItem, hf] using h
    | some i =>
      rw [deleteItem_found hf]
      show distinctIds (store.eraseIdx i)
      exact List.Pairwise.sublist (List.eraseIdx_sublist store i) h

/-! ### Claim theorems -/

/-- C1, counterexample to the claim as stated: ids are not a never-reused
watermark.  Starting from the empty store, Add assigns id 1; a confirmed
Delete(1) empties the store; `nextId` on the empty store is 1 again, and the
next Add reassigns the previously assigned and deleted id 1. -/
theorem C1_counterexample :
    addItem [] "a" "b" = ([⟨1, "a", "b"⟩], none) ∧
    (deleteItem [⟨1, "a", "b"⟩] none 1 true).1.1 = [] ∧
    nextId [] = 1 ∧
    addItem [] "c" "d" = ([⟨1, "c", "d"⟩], none) := by
  decide

/-- C1, amended: a confirmed Delete(id) on a store with pairwise-distinct
ids leaves no item with that id, so findById(id) afterwards returns none;
and `nextId` is strictly greater than every id currently in the store, so a
live id is never assigned a second time.  The never-reused-after-deletion
part of the original claim fails: after deleting the maximum id, `nextId`
returns that deleted id again (see the counterexample). -/
theorem C1_delete_find_absent_nextId_fresh :
    (∀ (store : List Item) (details : Option Int) (id : Int),
      distinctIds store →
      findById (deleteItem store details id true).1.1 id = none) ∧
    (∀ (store : List Item) (it : Item), it ∈ store → it.id < nextId store) := by
  constructor
  · intro store details id hd
    cases hf : findIndex store id with
    | none =>
      have hstore : (deleteItem store details id true).1.1 = store := by
        simp [deleteItem, hf]
      rw [hstore, findById]
      apply List.find?_eq_none.mpr
      intro it hit
      simp only [beq_iff_eq]
      exact (findIndex_eq_none_iff store id).mp hf it hit
    | some i =>
      rw [deleteItem_found hf]
      exact findById_eraseIdx_eq_none hd hf
  · intro store it h
    exact id_lt_nextId h

/-- C1 witness: the amended theorem applied to a concrete two-item store,
deleting id 1 while the detail view shows id 2. -/
theorem C1_witness :
    distinctIds [⟨1, "a", "b"⟩, ⟨2, "c", "d"⟩] ∧
    findById (deleteItem [⟨1, "a", "b"⟩, ⟨2, "c", "d"⟩] (some 2) 1 true).1.1 1
      = none :=
  ⟨by unfold distinctIds; decide,
    C1_delete_find_absent_nextId_fresh.1 [⟨1, "a", "b"⟩, ⟨2, "c", "d"⟩]
      (some 2) 1 (by unfold distinctIds; decide)⟩

/-- C2: the id assigned by Add on valid input is `nextId` of the old store;
`nextId` is 1 on the empty store and (maximum existing id) + 1 otherwise;
and in the scenario Add("Widget","A thing"), Add("Gadget","Another"),
Delete(1) the store is [{id 2}] and the next assigned id is 3, not 1. -/
theorem C2_assigned_id_max_plus_one :
    (∀ (store : List Item) (n d : String), validateInput n d = none →
      (addItem store n d).1 = store ++ [⟨nextId store, jsTrim n, jsTrim d⟩]) ∧
    nextId [] = 1 ∧
    (∀ store : List Item, store ≠ [] →
      nextId store - 1 ∈ store.map Item.id ∧
      ∀ i ∈ store.map Item.id, i ≤ nextId store - 1) ∧
    ((deleteItem
        (addItem (addItem [] "Widget" "A thing").1 "Gadget" "Another").1
        none 1 true).1.1 = [⟨2, "Gadget", "Another"⟩] ∧
      nextId [⟨2, "Gadget", "Another"⟩] = 3) := by
  refine ⟨?_, rfl, ?_, by decide⟩
  · intro store n d hv
    rw [addItem_valid hv]
  · intro store hne
    refine ⟨nextId_sub_one_mem hne, ?_⟩
    intro i hi
    obtain ⟨it, hit, rfl⟩ := List.mem_map.mp hi
    have := id_lt_nextId hit
    omega

/-- C2 witness: the characterization applied to the concrete one-item store
[{id 5}]: the newly assigned id is 6 = max + 1. -/
theorem C2_witness :
    ([⟨5, "x", "y"⟩] : List Item) ≠ [] ∧
    (addItem [⟨5, "x", "y"⟩] "a" "b").1 = [⟨5, "x", "y"⟩, ⟨6, "a", "b"⟩] ∧
    nextId [⟨5, "x", "y"⟩] - 1 ∈ ([⟨5, "x", "y"⟩] : List Item).map Item.id := by
  refine ⟨by decide, ?_,
    (C2_assigned_id_max_plus_one.2.2.1 [⟨5, "x", "y"⟩] (by decide)).1⟩
  have h := C2_assigned_id_max_plus_one.1 [⟨5, "x", "y"⟩] "a" "b" (by decide)
  rw [h]
  decide

/-- C3: Add with an empty or all-whitespace name returns the store unchanged
and signals EmptyName; Add with a valid name and an empty or all-whitespace
description returns the store unchanged and signals EmptyDescription. -/
theorem C3_add_invalid_unchanged :
    ∀ (store : List Item) (name description : String),
      (jsTrim name = "" →
        addItem store name description = (store, some Signal.emptyName)) ∧
      (jsTrim name ≠ "" → jsTrim description = "" →
        addItem store name description = (store, some Signal.emptyDescription)) := by
  intro store name description
  constructor
  · intro h
    simp [addItem, validateInput, h]
  · intro hn hd
    have hn' : name ≠ "" := fun h => hn (by rw [h]; rfl)
    simp [addItem, validateInput, hn, hd, hn']

/-- C3 witness: a whitespace-only name signals EmptyName, a valid name with
a whitespace-only description signals EmptyDescription; the store is
unchanged in both cases. -/
theorem C3_witness :
    (jsTrim "   " = "" ∧
      addItem [⟨1, "x", "y"⟩] "   " "desc"
        = ([⟨1, "x", "y"⟩], some Signal.emptyName)) ∧
    (jsTrim "N" ≠ "" ∧ jsTrim " " = "" ∧
      addItem [⟨1, "x", "y"⟩] "N" " "
        = ([⟨1, "x", "y"⟩], some Signal.emptyDescription)) :=
  ⟨⟨by decide, (C3_add_invalid_unchanged [⟨1, "x", "y"⟩] "   " "desc").1 (by decide)⟩,
    ⟨by decide, by decide,
      (C3_add_invalid_unchanged [⟨1, "x", "y"⟩] "N" " ").2 (by decide) (by decide)⟩⟩

/-- C4: Update with valid (nonempty after trimming) input on an id that no
stored item carries signals NotFound and returns the store unchanged. -/
theorem C4_update_absent_notFound :
    ∀ (store : List Item) (id : Int) (name description : String),
      jsTrim name ≠ "" → jsTrim description ≠ "" →
      (∀ it ∈ store, it.id ≠ id) →
      updateItem store id name description = (store, some Signal.notFound) := by
  intro store id name description hn hd habs
  have hv := validateInput_eq_none hn hd
  have hf : findIndex store id = none := (findIndex_eq_none_iff store id).mpr habs
  simp [updateItem, hv, hf]

/-- C4 witness: updating absent id 2 on a store holding only id 1. -/
theorem C4_witness :
    updateItem [⟨1, "x", "y"⟩] 2 "n" "d" = ([⟨1, "x", "y"⟩], some Signal.notFound) :=
  C4_update_absent_notFound [⟨1, "x", "y"⟩] 2 "n" "d" (by decide) (by decide)
    (by decide)

/-- C5: Add with valid input raises no signal, and findById of the assigned
id (`nextId` of the old store) on the new store returns an item whose name
and description are exactly the trimmed inputs. -/
theorem C5_add_find_roundtrip :
    ∀ (store : List Item) (name description : String),
      jsTrim name ≠ "" → jsTrim description ≠ "" →
      (addItem store name description).2 = none ∧
      findById (addItem store name description).1 (nextId store)
        = some ⟨nextId store, jsTrim name, jsTrim description⟩ := by
  intro store name description hn hd
  have hv := validateInput_eq_none hn hd
  rw [addItem_valid hv]
  exact ⟨rfl, find_fresh_append store _ rfl⟩

/-- C5 witness: adding " New  " / " Thing " to a one-item store and looking
the assigned id 2 up returns the trimmed item. -/
theorem C5_witness :
    findById (addItem [⟨1, "x", "y"⟩] " New  " " Thing ").1 2
      = some ⟨2, "New", "Thing"⟩ := by
  have h := (C5_add_find_roundtrip [⟨1, "x", "y"⟩] " New  " " Thing "
    (by decide) (by decide)).2
  rw [show nextId [⟨1, "x", "y"⟩] = 2 by decide] at h
  rw [h]
  decide

/-- C6: pairwise distinctness of the stored ids holds for the empty store
and is preserved by Add, Update, and Delete. -/
theorem C6_distinct_ids_invariant :
    distinctIds [] ∧
    (∀ (store : List Item) (n d : String),
      distinctIds store → distinctIds (addItem store n d).1) ∧
    (∀ (store : List Item) (id : Int) (n d : String),
      distinctIds store → distinctIds (updateItem store id n d).1) ∧
    (∀ (store : List Item) (details : Option Int) (id : Int) (c : Bool),
      distinctIds store → distinctIds (deleteItem store details id c).1.1) :=
  ⟨List.Pairwise.nil, distinctIds_addItem, distinctIds_updateItem,
    distinctIds_deleteItem⟩

/-- C6 witness: preservation applied to the concrete store [{id 1}] under an
Add. -/
theorem C6_witness :
    distinctIds [⟨1, "a", "b"⟩] ∧ distinctIds (addItem [⟨1, "a", "b"⟩] "c" "d").1 :=
  ⟨by unfold distinctIds; decide,
    C6_distinct_ids_invariant.2.1 [⟨1, "a", "b"⟩] "c" "d"
      (by unfold distinctIds; decide)⟩

/-- C7: Update with valid input on a store whose item with the given id sits
at index i raises no signal and replaces exactly the slot at i — same
position, same id, trimmed new name and description — while every other
position and the length stay unchanged. -/
theorem C7_update_in_place :
    ∀ (store : List Item) (id : Int) (name description : String) (i : Nat),
      jsTrim name ≠ "" → jsTrim description ≠ "" →
      findIndex store id = some i →
      (updateItem store id name description).2 = none ∧
      (updateItem store id name description).1
        = store.set i ⟨id, jsTrim name, jsTrim description⟩ ∧
      ((updateItem store id name description).1)[i]?
        = some ⟨id, jsTrim name, jsTrim description⟩ ∧
      (updateItem store id name description).1.length = store.length ∧
      (∀ j : Nat, j ≠ i →
        ((updateItem store id name description).1)[j]? = store[j]?) := by
  intro store id name description i hn hd hf
  have hv := validateInput_eq_none hn hd
  rw [updateItem_found hv hf]
  have hlen : i < store.length := findIndex_lt_length hf
  refine ⟨rfl, rfl, ?_, by simp, ?_⟩
  · rw [List.getElem?_set_self]
    simp [hlen]
  · intro j hj
    exact List.getElem?_set_ne (Ne.symm hj)

/-- C7 witness: updating id 1 at index 0 of a two-item store replaces slot 0
and leaves slot 1 untouched. -/
theorem C7_witness :
    (updateItem [⟨1, "a", "b"⟩, ⟨2, "c", "d"⟩] 1 " n " " d ").1
      = [⟨1, "n", "d"⟩, ⟨2, "c", "d"⟩] := by
  have h := (C7_update_in_place [⟨1, "a", "b"⟩, ⟨2, "c", "d"⟩] 1 " n " " d " 0
    (by decide) (by decide) (by decide)).2.1
  rw [h]
  decide

/-- C8: when the confirmation dialog is answered no, Delete performs no
mutation at all: the store and the detail view come back unchanged and no
signal is raised. -/
theorem C8_delete_unconfirmed_no_mutation :
    ∀ (store : List Item) (details : Option Int) (id : Int),
      deleteItem store details id false = ((store, details), none) := by
  intro store details id
  rfl

/-- C9: with an item of id 0 in the store and the form in Editing(0) mode,
submitting valid input routes to Add — editingItemId = 0 is falsy in the
submit listener — appending a brand-new item with the fresh nonzero id
`nextId store`, rather than updating item 0. -/
theorem C9_editing_zero_adds :
    ∀ (store : List Item) (name description : String),
      (∃ it ∈ store, it.id = 0) →
      jsTrim name ≠ "" → jsTrim description ≠ "" →
      submitForm store (some 0) name description
        = addItem store name description ∧
      (submitForm store (some 0) name description).1
        = store ++ [⟨nextId store, jsTrim name, jsTrim description⟩] ∧
      nextId store ≠ 0 ∧
      (∀ it ∈ store, it.id ≠ nextId store) := by
  intro store name description hzero hn hd
  have hroute : submitForm store (some 0) name description
      = addItem store name description := rfl
  refine ⟨hroute, ?_, ?_, ?_⟩
  · rw [hroute, addItem_valid (validateInput_eq_none hn hd)]
  · obtain ⟨it, hit, hid⟩ := hzero
    have := id_lt_nextId hit
    omega
  · intro it hit
    exact ne_of_lt (id_lt_nextId hit)

/-- C9 witness: store holding exactly the item {id 0}: submitting in
Editing(0) mode appends a new item with id 1 instead of updating item 0. -/
theorem C9_witness :
    (submitForm [⟨0, "a", "b"⟩] (some 0) "n" "d").1
      = [⟨0, "a", "b"⟩, ⟨1, "n", "d"⟩] := by
  have h := C9_editing_zero_adds [⟨0, "a", "b"⟩] "n" "d"
    ⟨⟨0, "a", "b"⟩, by decide, by decide⟩ (by decide) (by decide)
  rw [h.2.1]
  decide

/-- C10: a confirmed Delete that finds its item closes the detail view no
matter which item the view is currently showing: the resulting detail-view
state is `none` for every displayed id d, related to the deleted id or
not. -/
theorem C10_delete_closes_details :
    ∀ (store : List Item) (d id : Int) (i : Nat),
      findIndex store id = some i →
      (deleteItem store (some d) id true).1.2 = none := by
  intro store d id i hf
  rw [deleteItem_found hf]

/-- C10 witness: deleting id 1 while the detail view shows the different
item id 2 still closes the view. -/
theorem C10_witness :
    findIndex [⟨1, "a", "b"⟩, ⟨2, "c", "d"⟩] 1 = some 0 ∧
    (deleteItem [⟨1, "a", "b"⟩, ⟨2, "c", "d"⟩] (some 2) 1 true).1.2 = none :=
  ⟨by decide,
    C10_delete_closes_details [⟨1, "a", "b"⟩, ⟨2, "c", "d"⟩] 2 1 0 (by decide)⟩

end Catalog
